import Mathlib

/-!
Verification of the HireFlowAI semantic candidate ranking pipeline.

Shallow embedding of the services in `src/src/services/` (reranking.py,
retrieval.py, chatbot.py, vector_store.py, document_ingestion.py).
Strings are modelled as `List Char`, Python floats as `ℚ`, and functions
that can raise are given explicit outcome types.  Behaviour that lives in
the wrapped llama_index library (chunking, memory buffer, index
persistence) is modelled from the specification and marked as such.
-/

namespace HireFlow

/-- Error taxonomy of the specification (§7). -/
inductive PyError
  | invalidArgument
  | emptyInput
  | runtimeError
  | indexNotFound
  | indexCorrupt
deriving DecidableEq

/-- Outcome of a Python call: either an exception was raised or a value
was returned normally. -/
inductive PyResult (α : Type)
  | raised (e : PyError)
  | ok (a : α)
deriving DecidableEq

/-- Python slice `l[:t]`: for `t ≥ 0` the first `t` elements, for `t < 0`
all but the last `|t|` elements (clamped at the empty list). -/
def pySliceTo (t : Int) (l : List α) : List α :=
  if 0 ≤ t then l.take t.toNat else l.take (l.length - (-t).toNat)

/-- A text node as stored in the index (`node.node` of a llama_index
`NodeWithScore`): an identity plus its chunk text. -/
structure TextNode where
  nid : Nat
  text : List Char
deriving DecidableEq

/-- `NodeWithScore`: a retrieved node together with its similarity score
(reranking.py uses `node.score` and `node.text`). -/
structure NodeWithScore where
  node : TextNode
  score : ℚ
deriving DecidableEq

/-- `ReRankingManager.simple_rerank` (reranking.py lines 25-59): prints,
assigns `self.top_candidates = retrieved_nodes[:top_n]` and returns it.
The `job_description` argument is accepted and unused, as in the source. -/
def simple_rerank (retrieved_nodes : List NodeWithScore)
    (_job_description : List Char) (top_n : Int) : List NodeWithScore :=
  pySliceTo top_n retrieved_nodes

/-- The body of `simple_rerank` contains no `raise` and no failing
operation (slicing is total in Python), so as a call it always returns
normally. -/
def simple_rerank_run (retrieved_nodes : List NodeWithScore)
    (jd : List Char) (top_n : Int) : PyResult (List NodeWithScore) :=
  PyResult.ok (simple_rerank retrieved_nodes jd top_n)

/-- The mutable state of `RetrievalManager` (retrieval.py) relevant to
retrieval: the stored default `similarity_top_k` and, when a retriever
has been created, the `similarity_top_k` value baked into it.  The
wrapped `VectorIndexRetriever.retrieve` call is abstracted away; only
the `top_k` the manager hands it is tracked. -/
structure RetrievalManager where
  similarity_top_k : Int
  retriever : Option Int
deriving DecidableEq

/-- `RetrievalManager.__init__` (retrieval.py lines 23-34). -/
def initRetrievalManager (similarity_top_k : Int) : RetrievalManager :=
  { similarity_top_k := similarity_top_k, retriever := none }

/-- `RetrievalManager.create_retriever` (retrieval.py lines 36-47):
builds a retriever capturing the current `similarity_top_k`. -/
def create_retriever (m : RetrievalManager) : RetrievalManager :=
  { m with retriever := some m.similarity_top_k }

/-- `RetrievalManager.retrieve` (retrieval.py lines 49-91) as a state
transition: if `top_k` is supplied it overwrites `similarity_top_k`;
a retriever is (re)created when absent or when `top_k` was supplied;
the second component is the `similarity_top_k` the used retriever was
created with. -/
def retrieveStep (m : RetrievalManager) (top_k : Option Int) :
    RetrievalManager × Int :=
  let m1 := match top_k with
    | some k => { m with similarity_top_k := k }
    | none => m
  let m2 := if m1.retriever = none ∨ top_k ≠ none then create_retriever m1 else m1
  (m2, m2.retriever.getD m2.similarity_top_k)

/-- `retrieve` performs no validation and contains no `raise`: as a call
it always returns normally (the delegated library call is abstracted as
total). -/
def retrieve_run (m : RetrievalManager) (top_k : Option Int) :
    PyResult (RetrievalManager × Int) :=
  PyResult.ok (retrieveStep m top_k)

/-- Iterate `retrieve` with no explicit `top_k`, collecting the
`similarity_top_k` value used by each call. -/
def runDefaults (m : RetrievalManager) : Nat → RetrievalManager × List Int
  | 0 => (m, [])
  | n + 1 =>
      let st := retrieveStep m none
      let rest := runDefaults st.1 n
      (rest.1, st.2 :: rest.2)

/-- Lowercase a string, character by character (`str.lower()`). -/
def lowerStr (s : List Char) : List Char := s.map Char.toLower

/-- `pat` is a leading segment of `s`. -/
def leadsStr : List Char → List Char → Bool
  | [], _ => true
  | _ :: _, [] => false
  | a :: as, b :: bs => a == b && leadsStr as bs

/-- Python substring containment `pat in s` on character lists. -/
def containsStr (pat : List Char) : List Char → Bool
  | [] => leadsStr pat []
  | c :: rest => leadsStr pat (c :: rest) || containsStr pat rest

/-- `sum(1 for kw in boost_keywords if kw.lower() in text_lower)`
(reranking.py line 94): the number of boost keywords that occur at
least once in the lowered text — each keyword counts at most once,
however many times it occurs. -/
def keywordMatches (boost_keywords : List (List Char))
    (text_lower : List Char) : Nat :=
  (boost_keywords.filter (fun kw => containsStr (lowerStr kw) text_lower)).length

/-- Insert into a list sorted descending by key `f`, after any elements
of equal key — the insertion step of a stable descending sort. -/
def insertByDesc (f : α → ℚ) (x : α) : List α → List α
  | [] => [x]
  | y :: ys => if f y < f x then x :: y :: ys else y :: insertByDesc f x ys

/-- Stable descending sort by key `f`, modelling Python's
`list.sort(key=f, reverse=True)` (Timsort is stable; `reverse=True`
keeps equal-key elements in original order). -/
def sortByDesc (f : α → ℚ) (l : List α) : List α :=
  l.foldl (fun acc x => insertByDesc f x acc) []

/-- The per-node body of the boosting loop in
`ReRankingManager.advanced_rerank` (reranking.py lines 89-101): when
boost keywords are supplied (Python truthiness: `None` and `[]` both
skip the boost), multiply the score by `1 + min(matches * 0.05, 0.20)`
and build a fresh `NodeWithScore` with the same node. -/
def boostNode (boost_keywords : Option (List (List Char)))
    (n : NodeWithScore) : NodeWithScore :=
  match boost_keywords with
  | none => { node := n.node, score := n.score }
  | some kws =>
      if kws = [] then { node := n.node, score := n.score }
      else
        let m := keywordMatches kws (lowerStr n.node.text)
        let boost_factor := min ((m : ℚ) * (5 / 100)) (20 / 100)
        { node := n.node, score := n.score * (1 + boost_factor) }

/-- `ReRankingManager.advanced_rerank` (reranking.py lines 61-119):
boost every candidate's score, stably sort descending by boosted score,
take the top `top_n`. -/
def advanced_rerank (retrieved_nodes : List NodeWithScore)
    (_job_description : List Char) (top_n : Int)
    (boost_keywords : Option (List (List Char))) : List NodeWithScore :=
  pySliceTo top_n
    (sortByDesc (fun x => x.score) (retrieved_nodes.map (boostNode boost_keywords)))

/-- Python `str.strip()`: remove whitespace from both ends. -/
def pyStrip (s : List Char) : List Char :=
  ((s.dropWhile Char.isWhitespace).reverse.dropWhile Char.isWhitespace).reverse

/-- The exit commands of the interactive loop (chatbot.py line 155). -/
def exitCommands : List (List Char) :=
  ["exit".toList, "quit".toList, "bye".toList, "q".toList]

/-- Outcome of one iteration of the interactive chat loop. -/
inductive StepOutcome
  | exited
  | skipped
  | replied (reply : List Char)
  | errored (e : PyError)
deriving DecidableEq

/-- One iteration of the loop in
`ChatbotManager.start_interactive_session` (chatbot.py lines 149-181):
strip the raw input; an exit command terminates the loop; input that is
empty after stripping is skipped with `continue` (no turn recorded, no
engine call); otherwise the engine is called and the user/assistant
exchange is recorded in the engine's memory.  The result is the
outcome, the conversation history after the step, and whether the
generator was invoked. -/
def interactive_step (gen : List Char → List Char)
    (history : List (Bool × List Char)) (raw : List Char) :
    StepOutcome × List (Bool × List Char) × Bool :=
  let q := pyStrip raw
  if lowerStr q ∈ exitCommands then (StepOutcome.exited, history, false)
  else if q = [] then (StepOutcome.skipped, history, false)
  else
    let reply := gen q
    (StepOutcome.replied reply, history ++ [(true, q), (false, reply)], true)

/-- `ChatbotManager.chat` (chatbot.py lines 97-111): raises
`RuntimeError` when no engine exists, otherwise forwards the message to
the engine unvalidated (blank messages included). -/
def chat (engine_ready : Bool) (gen : List Char → List Char)
    (message : List Char) : PyResult (List Char) :=
  if engine_ready then PyResult.ok (gen message) else PyResult.raised PyError.runtimeError

/-- A chunk stored in an index: identity, text and embedding vector. -/
structure IdxChunk where
  cid : Nat
  ctext : List Char
  vec : List ℚ
deriving DecidableEq

/-- An in-memory vector index: its stored chunks. -/
structure Index where
  chunks : List IdxChunk
deriving DecidableEq

/-- What `VectorStoreManager.load_index` finds at its persist
directory: whether the directory exists, and the index the storage
files decode to (`none` when they are missing or corrupt, which makes
the wrapped loader raise). -/
structure PersistLocation where
  dirExists : Bool
  content : Option Index
deriving DecidableEq

/-- Outcome of a `load_index` call: an exception escaped, or a value
(`Optional[VectorStoreIndex]`) was returned. -/
inductive LoadOutcome
  | raised (e : PyError)
  | returned (idx : Option Index)
deriving DecidableEq

/-- `VectorStoreManager.load_index` (vector_store.py lines 89-108):
a missing persist directory returns `None`; a decoding failure is
caught by the blanket `except` and returns `None`; success returns the
loaded index.  No exception ever escapes. -/
def load_index (loc : PersistLocation) : LoadOutcome :=
  if loc.dirExists then
    match loc.content with
    | some idx => LoadOutcome.returned (some idx)
    | none => LoadOutcome.returned none
  else LoadOutcome.returned none

/-- A per-query scored chunk reference. -/
structure Scored where
  cid : Nat
  score : ℚ
deriving DecidableEq

/-- Inner product of two vectors (missing entries count 0). -/
def dotProd : List ℚ → List ℚ → ℚ
  | [], _ => 0
  | _, [] => 0
  | a :: as, b :: bs => a * b + dotProd as bs

/-- Modelled from the spec: `Index.query` is implemented inside
llama_index, not under src/; §4.1 specifies nearest-neighbour search
returning the k best chunks sorted descending by similarity
(inner-product over normalized vectors), ties kept in insertion
order. -/
def queryIndex (X : Index) (v : List ℚ) (k : Nat) : List Scored :=
  (sortByDesc (fun sc => sc.score)
    (X.chunks.map (fun c => { cid := c.cid, score := dotProd v c.vec }))).take k

/-- The durable representation written by `persist`: the chunks' ids,
texts and vectors, stored columnwise (llama_index writes separate
docstore and vector-store files). -/
structure PersistedStore where
  ids : List Nat
  texts : List (List Char)
  vecs : List (List ℚ)
deriving DecidableEq

/-- Modelled from the spec: `storage_context.persist` (called by
`VectorStoreManager.save_index`, vector_store.py line 81) is llama_index
code absent from src/; §6 requires an implementation-defined durable
format that round-trips, so persisting writes every chunk's id, text
and vector. -/
def persistIndex (X : Index) : PersistedStore :=
  { ids := X.chunks.map (fun c => c.cid)
    texts := X.chunks.map (fun c => c.ctext)
    vecs := X.chunks.map (fun c => c.vec) }

/-- Modelled from the spec: `load_index_from_storage` (called by
`VectorStoreManager.load_index`, vector_store.py line 102) is
llama_index code absent from src/; loading reassembles the chunks from
the stored columns. -/
def loadStore (p : PersistedStore) : Index :=
  { chunks := (p.ids.zip (p.texts.zip p.vecs)).map
      (fun x => { cid := x.1, ctext := x.2.1, vec := x.2.2 }) }

/-- Role of a conversation turn. -/
inductive Role
  | user
  | assistant
deriving DecidableEq

/-- A conversation turn with its token count. -/
structure ChatTurn where
  role : Role
  text : List Char
  tokens : Nat
deriving DecidableEq

/-- Total token count of a turn sequence. -/
def memTokens (ts : List ChatTurn) : Nat := (ts.map (fun t => t.tokens)).sum

/-- Modelled from the spec: the `ChatMemoryBuffer` constructed with
`token_limit` in `ChatbotManager.create_chat_engine` (chatbot.py line
66) and `interactive_chatbot` (simple_pipeline_local.py line 298) is
llama_index code absent from src/; §3 specifies that when an insertion
would exceed the budget the oldest turns are evicted FIFO until the
token count fits again (evicting everything if nothing fits). -/
def evictOldest (budget : Nat) : List ChatTurn → List ChatTurn
  | [] => []
  | t :: ts => if memTokens (t :: ts) ≤ budget then t :: ts else evictOldest budget ts

/-- Bounded conversational memory: the turns and the token budget. -/
structure Memory where
  turns : List ChatTurn
  token_budget : Nat

/-- Append a turn, then restore the budget invariant by FIFO
eviction. -/
def insertTurn (m : Memory) (t : ChatTurn) : Memory :=
  { m with turns := evictOldest m.token_budget (m.turns ++ [t]) }

/-- Modelled from the spec: `submit_turn` (§4.4) appends the user turn
to memory (evicting as needed), invokes the generator, and appends the
assistant turn (again subject to eviction). -/
def submitTurn (gen : List Char → ChatTurn) (m : Memory)
    (utext : List Char) (utokens : Nat) : Memory :=
  let m1 := insertTurn m { role := Role.user, text := utext, tokens := utokens }
  insertTurn m1 (gen utext)

/-- Run a conversation session from empty memory over a sequence of
user inputs (text with token count). -/
def runSession (gen : List Char → ChatTurn) (budget : Nat)
    (inputs : List (List Char × Nat)) : Memory :=
  inputs.foldl (fun m u => submitTurn gen m u.1 u.2) { turns := [], token_budget := budget }

/-- An ingested document: source identifier and extracted text. -/
structure Document where
  source : List Char
  text : List Char
deriving DecidableEq

/-- A chunk produced from a parent document at index-build time. -/
structure DocChunk where
  parent : Document
  ctext : List Char
deriving DecidableEq

/-- Fuel-indexed window splitter: take a window of width `w`, advance
by `s + 1` characters, repeat; the fuel (the text length at the top
call) bounds the recursion. -/
def chunkAux (w s : Nat) : Nat → List Char → List (List Char)
  | _, [] => []
  | 0, _ :: _ => []
  | fuel + 1, c :: rest => (c :: rest).take w :: chunkAux w s fuel (rest.drop s)

/-- Modelled from the spec: the Chunker (§2) runs inside llama_index's
`VectorStoreIndex.from_documents`, not under src/; it splits a
document's text into overlapping windows sized for the embedder, and
empty text yields no windows. -/
def chunkText (w s : Nat) (t : List Char) : List (List Char) :=
  chunkAux w s t.length t

/-- Chunk one document, tagging every window with its parent. -/
def chunkDocument (w s : Nat) (d : Document) : List DocChunk :=
  (chunkText w s d.text).map (fun t => { parent := d, ctext := t })

/-- `VectorStoreManager.create_index` (vector_store.py lines 38-67)
passes its document list to `VectorStoreIndex.from_documents`
unfiltered; the chunks of the built index are whatever the chunker
produces from each document. -/
def create_index (w s : Nat) (documents : List Document) : List DocChunk :=
  (documents.map (chunkDocument w s)).flatten

/-! Helper lemmas shared by several claims. -/

/-- Both branches of a Python `[:t]` slice are a `take`, hence a
sublist of the original. -/
theorem pySliceTo_subset (t : Int) (l : List α) : pySliceTo t l ⊆ l := by
  unfold pySliceTo
  split <;> exact List.take_subset _ _

/-- Membership through the insertion step of the stable sort. -/
theorem mem_insertByDesc {f : α → ℚ} {x a : α} {l : List α} :
    a ∈ insertByDesc f x l ↔ a = x ∨ a ∈ l := by
  induction l with
  | nil => simp [insertByDesc]
  | cons y ys ih =>
    unfold insertByDesc
    split
    · simp [List.mem_cons]
    · simp [List.mem_cons, ih]
      tauto

/-- Membership through the stable sort: sorting permutes, so it
preserves membership. -/
theorem mem_sortByDesc {f : α → ℚ} {a : α} {l : List α} :
    a ∈ sortByDesc f l ↔ a ∈ l := by
  have general : ∀ (l acc : List α),
      a ∈ l.foldl (fun acc x => insertByDesc f x acc) acc ↔ a ∈ acc ∨ a ∈ l := by
    intro l
    induction l with
    | nil => simp
    | cons y ys ih =>
      intro acc
      simp only [List.foldl_cons, ih, mem_insertByDesc, List.mem_cons]
      tauto
  simpa [sortByDesc] using general l []

/-- Every element of the boosted rerank output arises by boosting one
of the input candidates. -/
theorem mem_advanced_rerank {nodes : List NodeWithScore} {jd : List Char}
    {top_n : Int} {bk : Option (List (List Char))} {b : NodeWithScore}
    (hb : b ∈ advanced_rerank nodes jd top_n bk) :
    ∃ n ∈ nodes, b = boostNode bk n := by
  have h1 : b ∈ sortByDesc (fun x => x.score) (nodes.map (boostNode bk)) :=
    pySliceTo_subset _ _ hb
  have h2 : b ∈ nodes.map (boostNode bk) := mem_sortByDesc.mp h1
  rcases List.mem_map.mp h2 with ⟨n, hn, he⟩
  exact ⟨n, hn, he.symm⟩

/-- The boosted score is always the original score times
`1 + min(matches * 0.05, 0.20)` — also in the degenerate empty-keyword
case, where the factor is `1`. -/
theorem boostNode_score (kws : List (List Char)) (n : NodeWithScore) :
    (boostNode (some kws) n).node = n.node ∧
    (boostNode (some kws) n).score = n.score *
      (1 + min ((keywordMatches kws (lowerStr n.node.text) : ℚ) * (5 / 100)) (20 / 100)) := by
  unfold boostNode
  by_cases h : kws = []
  · subst h
    simp [keywordMatches]
    norm_num
  · simp [h]

/-- The boost factor `1 + min(matches * 0.05, 0.20)` lies in
`[1, 1.20]`. -/
theorem boost_factor_bounds (m : Nat) :
    1 ≤ 1 + min ((m : ℚ) * (5 / 100)) (20 / 100) ∧
    1 + min ((m : ℚ) * (5 / 100)) (20 / 100) ≤ 6 / 5 := by
  constructor
  · have h1 : (0 : ℚ) ≤ (m : ℚ) * (5 / 100) := by positivity
    have h2 : (0 : ℚ) ≤ 20 / 100 := by norm_num
    have := le_min h1 h2
    linarith
  · have := min_le_right ((m : ℚ) * (5 / 100)) ((20 : ℚ) / 100)
    linarith

/-- A Python `[:t]` slice never lengthens the list. -/
theorem pySliceTo_length_le (t : Int) (l : List α) :
    (pySliceTo t l).length ≤ l.length := by
  unfold pySliceTo
  split <;> simp [List.length_take]

/-- C1, counterexample: for a candidate of score 1 whose text contains
the single boost term "CPA" twice, `advanced_rerank` multiplies the
score by 1.05 (one matching term), not by 1.10 as the claim's
occurrence count `m = 2` would demand. -/
theorem c1_counterexample :
    advanced_rerank [{ node := { nid := 0, text := "CPA and CPA".toList }, score := 1 }]
        [] 3 (some ["CPA".toList]) =
      [{ node := { nid := 0, text := "CPA and CPA".toList }, score := 21 / 20 }] ∧
    (21 / 20 : ℚ) ≠ 1 * (11 / 10) := by
  constructor
  · have h : keywordMatches [['C', 'P', 'A']]
        (lowerStr ['C', 'P', 'A', ' ', 'a', 'n', 'd', ' ', 'C', 'P', 'A']) = 1 := by decide
    simp [advanced_rerank, pySliceTo, sortByDesc, insertByDesc, boostNode, h]
    norm_num
  · norm_num

/-- C1 (amended): every candidate returned by the boosted rerank
carries the score `score * (1 + min(0.05 * m, 0.20))` of some input
candidate, where `m` counts the boost terms that occur at least once
(case-insensitively) in the chunk text — each term counts once, however
many times it occurs. -/
theorem c1_boost_counts_distinct_terms (nodes : List NodeWithScore)
    (jd : List Char) (top_n : Int) (kws : List (List Char)) (b : NodeWithScore)
    (hb : b ∈ advanced_rerank nodes jd top_n (some kws)) :
    ∃ n ∈ nodes, b.node = n.node ∧
      b.score = n.score *
        (1 + min ((keywordMatches kws (lowerStr n.node.text) : ℚ) * (5 / 100)) (20 / 100)) := by
  rcases mem_advanced_rerank hb with ⟨n, hn, he⟩
  rcases boostNode_score kws n with ⟨h1, h2⟩
  exact ⟨n, hn, by rw [he]; exact h1, by rw [he]; exact h2⟩

/-- C1, witness: the amended statement instantiated at the two-"CPA"
candidate. -/
theorem c1_witness :
    ∃ n ∈ [({ node := { nid := 0, text := "CPA and CPA".toList }, score := 1 } : NodeWithScore)],
      ({ node := { nid := 0, text := "CPA and CPA".toList }, score := 21 / 20 } : NodeWithScore).node = n.node ∧
      ({ node := { nid := 0, text := "CPA and CPA".toList }, score := 21 / 20 } : NodeWithScore).score =
        n.score *
          (1 + min ((keywordMatches ["CPA".toList] (lowerStr n.node.text) : ℚ) * (5 / 100)) (20 / 100)) :=
  c1_boost_counts_distinct_terms
    [{ node := { nid := 0, text := "CPA and CPA".toList }, score := 1 }]
    [] 3 ["CPA".toList]
    { node := { nid := 0, text := "CPA and CPA".toList }, score := 21 / 20 }
    (by
      have h : keywordMatches [['C', 'P', 'A']]
          (lowerStr ['C', 'P', 'A', ' ', 'a', 'n', 'd', ' ', 'C', 'P', 'A']) = 1 := by decide
      simp [advanced_rerank, pySliceTo, sortByDesc, insertByDesc, boostNode, h]
      norm_num)

/-- C2, counterexample: a candidate with the in-range similarity score
-1 whose text matches a boost term gets score -1.05 < -1, violating
`score' ≥ original score`. -/
theorem c2_counterexample :
    advanced_rerank [{ node := { nid := 0, text := "cpa".toList }, score := -1 }]
        [] 3 (some ["CPA".toList]) =
      [{ node := { nid := 0, text := "cpa".toList }, score := -(21 / 20) }] ∧
    ¬ ((-1 : ℚ) ≤ -(21 / 20)) := by
  constructor
  · have h : keywordMatches [['C', 'P', 'A']] (lowerStr ['c', 'p', 'a']) = 1 := by decide
    simp [advanced_rerank, pySliceTo, sortByDesc, insertByDesc, boostNode, h]
    norm_num
  · norm_num

/-- C2 (amended): when every input score is nonnegative — the `[0,1]`
metric range — every returned boosted score lies between the
candidate's original score and 1.20 times it. -/
theorem c2_boost_bounds (nodes : List NodeWithScore) (jd : List Char)
    (top_n : Int) (kws : List (List Char)) (b : NodeWithScore)
    (hpos : ∀ n ∈ nodes, 0 ≤ n.score)
    (hb : b ∈ advanced_rerank nodes jd top_n (some kws)) :
    ∃ n ∈ nodes, b.node = n.node ∧ n.score ≤ b.score ∧ b.score ≤ n.score * (6 / 5) := by
  rcases mem_advanced_rerank hb with ⟨n, hn, he⟩
  rcases boostNode_score kws n with ⟨h1, h2⟩
  have hs : 0 ≤ n.score := hpos n hn
  rcases boost_factor_bounds (keywordMatches kws (lowerStr n.node.text)) with ⟨hf1, hf2⟩
  refine ⟨n, hn, by rw [he]; exact h1, ?_, ?_⟩
  · rw [he, h2]
    nlinarith
  · rw [he, h2]
    nlinarith

/-- C2, witness: the amended statement instantiated at a score-1
candidate matching one boost term. -/
theorem c2_witness :
    ∃ n ∈ [({ node := { nid := 0, text := "cpa".toList }, score := 1 } : NodeWithScore)],
      ({ node := { nid := 0, text := "cpa".toList }, score := 21 / 20 } : NodeWithScore).node = n.node ∧
      n.score ≤ ({ node := { nid := 0, text := "cpa".toList }, score := 21 / 20 } : NodeWithScore).score ∧
      ({ node := { nid := 0, text := "cpa".toList }, score := 21 / 20 } : NodeWithScore).score ≤
        n.score * (6 / 5) :=
  c2_boost_bounds [{ node := { nid := 0, text := "cpa".toList }, score := 1 }]
    [] 3 ["CPA".toList]
    { node := { nid := 0, text := "cpa".toList }, score := 21 / 20 }
    (by
      intro n hn
      rw [List.mem_singleton] at hn
      subst hn
      norm_num)
    (by
      have h : keywordMatches [['C', 'P', 'A']] (lowerStr ['c', 'p', 'a']) = 1 := by decide
      simp [advanced_rerank, pySliceTo, sortByDesc, insertByDesc, boostNode, h]
      norm_num)

/-- C3, counterexample: `simple_rerank` called with `top_n = 0` returns
the empty list normally, and `retrieve` called with `top_k = 0` stores
0 and returns normally — neither raises `InvalidArgument`. -/
theorem c3_counterexample :
    simple_rerank_run [{ node := { nid := 0, text := [] }, score := 1 }] [] 0 =
      PyResult.ok [] ∧
    simple_rerank_run [{ node := { nid := 0, text := [] }, score := 1 }] [] 0 ≠
      PyResult.raised PyError.invalidArgument ∧
    retrieve_run (initRetrievalManager 5) (some 0) =
      PyResult.ok ({ similarity_top_k := 0, retriever := some 0 }, 0) ∧
    retrieve_run (initRetrievalManager 5) (some 0) ≠
      PyResult.raised PyError.invalidArgument := by
  refine ⟨rfl, ?_, rfl, ?_⟩
  · intro hcon
    simp [simple_rerank_run] at hcon
  · intro hcon
    simp [retrieve_run] at hcon

/-- C3 (amended): neither operation validates its argument. `rerank`
with `top_n ≤ 0` returns the Python slice `scored[:top_n]` normally
(empty when `top_n = 0`, never longer than the input); `retrieve` with
`k ≤ 0` overwrites the stored default with `k`, creates a retriever
capturing it, and returns normally. -/
theorem c3_no_validation (nodes : List NodeWithScore) (jd : List Char)
    (top_n : Int) (m : RetrievalManager) (k : Int)
    (ht : top_n ≤ 0) (_hk : k ≤ 0) :
    (∃ r, simple_rerank_run nodes jd top_n = PyResult.ok r ∧
      (top_n = 0 → r = []) ∧ r.length ≤ nodes.length) ∧
    (∃ m', retrieve_run m (some k) = PyResult.ok (m', k) ∧
      m'.similarity_top_k = k ∧ m'.retriever = some k) := by
  constructor
  · refine ⟨simple_rerank nodes jd top_n, rfl, ?_, pySliceTo_length_le top_n nodes⟩
    intro h0
    subst h0
    simp [simple_rerank, pySliceTo]
  · refine ⟨{ similarity_top_k := k, retriever := some k }, ?_, rfl, rfl⟩
    simp [retrieve_run, retrieveStep, create_retriever]

/-- C3, witness: the amended statement instantiated at `top_n = 0` and
`k = 0`. -/
theorem c3_witness :
    (∃ r, simple_rerank_run [{ node := { nid := 0, text := [] }, score := 1 }] [] 0 =
        PyResult.ok r ∧ ((0 : Int) = 0 → r = []) ∧
        r.length ≤ [({ node := { nid := 0, text := [] }, score := 1 } : NodeWithScore)].length) ∧
    (∃ m', retrieve_run (initRetrievalManager 5) (some 0) = PyResult.ok (m', 0) ∧
      m'.similarity_top_k = 0 ∧ m'.retriever = some 0) :=
  c3_no_validation [{ node := { nid := 0, text := [] }, score := 1 }] [] 0
    (initRetrievalManager 5) 0 (by decide) (by decide)

/-- C4: `simple_rerank` with positive `top_n` returns the first `top_n`
input elements unchanged, its length is `min(top_n, len(input))`, and a
`top_n` at least the candidate count returns the whole input. -/
theorem c4_simple_rerank_truncates (nodes : List NodeWithScore)
    (jd : List Char) (top_n : Int) (h : 0 < top_n) :
    simple_rerank nodes jd top_n = nodes.take top_n.toNat ∧
    (simple_rerank nodes jd top_n).length = min top_n.toNat nodes.length ∧
    (nodes.length ≤ top_n.toNat → simple_rerank nodes jd top_n = nodes) := by
  have h0 : 0 ≤ top_n := le_of_lt h
  unfold simple_rerank pySliceTo
  rw [if_pos h0]
  refine ⟨rfl, ?_, ?_⟩
  · simp [List.length_take]
  · intro hlen
    exact List.take_of_length_le hlen

/-- C4, witness: truncation at `top_n = 1` on a two-candidate list. -/
theorem c4_witness :
    simple_rerank [{ node := { nid := 0, text := [] }, score := 1 },
        { node := { nid := 1, text := [] }, score := 0 }] [] 1 =
      ([{ node := { nid := 0, text := [] }, score := 1 },
        { node := { nid := 1, text := [] }, score := 0 }] : List NodeWithScore).take (1 : Int).toNat ∧
    (simple_rerank [{ node := { nid := 0, text := [] }, score := 1 },
        { node := { nid := 1, text := [] }, score := 0 }] [] 1).length =
      min (1 : Int).toNat
        ([({ node := { nid := 0, text := [] }, score := 1 } : NodeWithScore),
          { node := { nid := 1, text := [] }, score := 0 }] : List NodeWithScore).length ∧
    (([({ node := { nid := 0, text := [] }, score := 1 } : NodeWithScore),
        { node := { nid := 1, text := [] }, score := 0 }] : List NodeWithScore).length ≤ (1 : Int).toNat →
      simple_rerank [{ node := { nid := 0, text := [] }, score := 1 },
        { node := { nid := 1, text := [] }, score := 0 }] [] 1 =
      [{ node := { nid := 0, text := [] }, score := 1 },
        { node := { nid := 1, text := [] }, score := 0 }]) :=
  c4_simple_rerank_truncates
    [{ node := { nid := 0, text := [] }, score := 1 },
      { node := { nid := 1, text := [] }, score := 0 }] [] 1 (by decide)

/-- A manager whose retriever already captures its stored default `k`
is left unchanged by a default retrieve, which uses `k`. -/
theorem retrieveStep_none_fixed (k : Int) :
    retrieveStep { similarity_top_k := k, retriever := some k } none =
      ({ similarity_top_k := k, retriever := some k }, k) := by
  simp [retrieveStep]

/-- C10: after `retrieve` is called with an explicit `top_k = k`, the
manager's stored default is `k`, and every one of the next `n` calls
without a `top_k` argument uses `k` and leaves the state unchanged —
the constructor-time default is gone for good. -/
theorem c10_explicit_topk_persists (m : RetrievalManager) (k : Int) (n : Nat) :
    ((retrieveStep m (some k)).1).similarity_top_k = k ∧
    (runDefaults (retrieveStep m (some k)).1 n).2 = List.replicate n k ∧
    (runDefaults (retrieveStep m (some k)).1 n).1 = (retrieveStep m (some k)).1 := by
  have hm : (retrieveStep m (some k)).1 = { similarity_top_k := k, retriever := some k } := by
    simp [retrieveStep, create_retriever]
  have run : ∀ j, runDefaults { similarity_top_k := k, retriever := some k } j =
      ({ similarity_top_k := k, retriever := some k }, List.replicate j k) := by
    intro j
    induction j with
    | zero => simp [runDefaults]
    | succ i ih => simp [runDefaults, retrieveStep_none_fixed, ih, List.replicate_succ]
  rw [hm]
  simp [run n]

/-- C5, counterexample: input that is blank after trimming is skipped
by the interactive loop — outcome `skipped`, history unchanged,
generator not called — rather than failing with `EmptyInput`; and the
direct `chat` call forwards a blank message to the engine. -/
theorem c5_counterexample :
    interactive_step (fun _ => []) [] "  ".toList = (StepOutcome.skipped, [], false) ∧
    (interactive_step (fun _ => []) [] "  ".toList).1 ≠ StepOutcome.errored PyError.emptyInput ∧
    chat true (fun _ => []) "  ".toList = PyResult.ok [] := by
  have h1 : interactive_step (fun _ => []) [] "  ".toList =
      (StepOutcome.skipped, [], false) := by decide
  refine ⟨h1, ?_, rfl⟩
  rw [h1]
  simp

/-- C5 (amended): input that is blank after trimming is silently
skipped by the interactive session loop — no turn is appended and the
generator is not called — and no `EmptyInput` error is raised; the
direct `chat` call performs no blank-input validation and forwards the
message to the engine as-is. -/
theorem c5_blank_input_skipped (gen : List Char → List Char)
    (history : List (Bool × List Char)) (raw : List Char)
    (h : pyStrip raw = []) :
    interactive_step gen history raw = (StepOutcome.skipped, history, false) ∧
    chat true gen raw = PyResult.ok (gen raw) := by
  have hne : ¬ (lowerStr ([] : List Char) ∈ exitCommands) := by decide
  exact ⟨by simp [interactive_step, h, hne], rfl⟩

/-- C5, witness: the amended statement instantiated at two spaces of
input. -/
theorem c5_witness :
    interactive_step (fun _ => []) [] "  ".toList = (StepOutcome.skipped, [], false) ∧
    chat true (fun _ => []) "  ".toList = PyResult.ok ((fun _ => ([] : List Char)) "  ".toList) :=
  c5_blank_input_skipped (fun _ => []) [] "  ".toList (by decide)

/-- C6, counterexample: `load_index` on a missing persist directory
returns `None` normally; it raises neither `IndexNotFound` nor
`IndexCorrupt`. -/
theorem c6_counterexample :
    load_index { dirExists := false, content := none } = LoadOutcome.returned none ∧
    load_index { dirExists := false, content := none } ≠
      LoadOutcome.raised PyError.indexNotFound ∧
    load_index { dirExists := false, content := none } ≠
      LoadOutcome.raised PyError.indexCorrupt := by
  refine ⟨rfl, ?_, ?_⟩ <;> simp [load_index]

/-- C6 (amended): `load_index` on a missing or corrupt location
returns `None` — it raises no error — and `None` differs from every
successfully loaded index, the empty one included, so a caller can
still distinguish a failed load from a loaded empty corpus. -/
theorem c6_failed_load_returns_none (loc : PersistLocation)
    (h : loc.dirExists = false ∨ loc.content = none) :
    load_index loc = LoadOutcome.returned none ∧
    (∀ e, load_index loc ≠ LoadOutcome.raised e) ∧
    load_index loc ≠ LoadOutcome.returned (some { chunks := [] }) := by
  have hn : load_index loc = LoadOutcome.returned none := by
    rcases h with h | h
    · simp [load_index, h]
    · cases hd : loc.dirExists <;> simp [load_index, hd, h]
  refine ⟨hn, ?_, ?_⟩
  · intro e hcon
    rw [hn] at hcon
    simp at hcon
  · rw [hn]
    simp

/-- C6, witness: the amended statement at a missing directory. -/
theorem c6_witness :
    load_index { dirExists := false, content := none } = LoadOutcome.returned none ∧
    (∀ e, load_index { dirExists := false, content := none } ≠ LoadOutcome.raised e) ∧
    load_index { dirExists := false, content := none } ≠
      LoadOutcome.returned (some { chunks := [] }) :=
  c6_failed_load_returns_none { dirExists := false, content := none } (Or.inl rfl)

/-- Reassembling the persisted columns restores the chunk list
exactly. -/
theorem loadStore_persistIndex (X : Index) : loadStore (persistIndex X) = X := by
  unfold loadStore persistIndex
  congr 1
  induction X.chunks with
  | nil => rfl
  | cons c cs ih => simp_all

/-- C7: a persisted-then-loaded index answers every query with the
same scored chunks, in the same order, as the original. -/
theorem c7_persist_load_round_trip (X : Index) (v : List ℚ) (k : Nat) :
    queryIndex (loadStore (persistIndex X)) v k = queryIndex X v k := by
  rw [loadStore_persistIndex]

/-- FIFO eviction always restores the token budget (dropping
everything if nothing fits). -/
theorem memTokens_evictOldest (budget : Nat) (l : List ChatTurn) :
    memTokens (evictOldest budget l) ≤ budget := by
  induction l with
  | nil => simp [evictOldest, memTokens]
  | cons t ts ih =>
    unfold evictOldest
    split
    · assumption
    · exact ih

/-- C8: after any number of `submit_turn` calls from a fresh session,
the memory's token count never exceeds the budget — the invariant
holds at every intermediate state (every prefix of the call
sequence). -/
theorem c8_memory_invariant (gen : List Char → ChatTurn) (budget : Nat)
    (inputs : List (List Char × Nat)) (i : Nat) :
    memTokens (runSession gen budget (inputs.take i)).turns ≤ budget := by
  suffices h : ∀ (l : List (List Char × Nat)) (m : Memory),
      m.token_budget = budget → memTokens m.turns ≤ budget →
      memTokens (l.foldl (fun m u => submitTurn gen m u.1 u.2) m).turns ≤ budget ∧
      (l.foldl (fun m u => submitTurn gen m u.1 u.2) m).token_budget = budget by
    exact (h (inputs.take i) { turns := [], token_budget := budget } rfl
      (by simp [memTokens])).1
  intro l
  induction l with
  | nil => exact fun m hb ht => ⟨ht, hb⟩
  | cons u us ih =>
    intro m hb ht
    apply ih
    · simp [submitTurn, insertTurn, hb]
    · have : memTokens (submitTurn gen m u.1 u.2).turns ≤ m.token_budget := by
        simp only [submitTurn, insertTurn]
        exact memTokens_evictOldest _ _
      rw [hb] at this
      exact this

/-- Empty text yields no windows. -/
theorem chunkText_nil (w s : Nat) : chunkText w s [] = [] := rfl

/-- C9: every chunk of the built index originates from a document with
non-empty extracted text — a document whose text is empty contributes
no chunk. -/
theorem c9_no_chunks_from_empty_docs (w s : Nat) (docs : List Document)
    (c : DocChunk) (hc : c ∈ create_index w s docs) :
    ∃ d ∈ docs, c.parent = d ∧ d.text ≠ [] := by
  unfold create_index at hc
  rcases List.mem_flatten.mp hc with ⟨l, hl, hcl⟩
  rcases List.mem_map.mp hl with ⟨d, hd, rfl⟩
  unfold chunkDocument at hcl
  rcases List.mem_map.mp hcl with ⟨t, ht, rfl⟩
  refine ⟨d, hd, rfl, ?_⟩
  intro hempty
  rw [hempty, chunkText_nil] at ht
  exact absurd ht (List.not_mem_nil t)

/-- C9, witness: the single chunk built from a one-document corpus has
a non-empty parent text. -/
theorem c9_witness :
    ∃ d ∈ [({ source := "r".toList, text := "abc".toList } : Document)],
      ({ parent := { source := "r".toList, text := "abc".toList },
         ctext := "abc".toList } : DocChunk).parent = d ∧ d.text ≠ [] :=
  c9_no_chunks_from_empty_docs 10 5 [{ source := "r".toList, text := "abc".toList }]
    { parent := { source := "r".toList, text := "abc".toList }, ctext := "abc".toList }
    (by decide)

end HireFlow
